import Mathlib

/-!
# Hostel-complaint escalation engine: shallow embedding

This file embeds the complaint data model and the operations of the
hostel-complaint application (`src/types/complaint.ts`, the Supabase-backed
`useComplaints` hook, the `ComplaintDetail` view guards, and the SQL
row-level-security delete policy) as executable Lean definitions, and proves
the specified properties about them.

Timestamps are modelled as integers (milliseconds since the epoch), matching
the `Date.getTime()` arithmetic the source performs; the JavaScript
`Math.floor` of a real quotient of integers is `Int.fdiv`.
-/

namespace HostelHelper

/-- `Status` from `src/types/complaint.ts`:
`'Pending' | 'Assigned' | 'Escalated' | 'Resolved'`. -/
inductive Status where
  | Pending
  | Assigned
  | Escalated
  | Resolved
  deriving DecidableEq, Repr

/-- `Level` from `src/types/complaint.ts`:
`'Level 1' | 'Level 2' | 'Level 3' | 'Level 4'`. -/
inductive Level where
  | L1
  | L2
  | L3
  | L4
  deriving DecidableEq, Repr

/-- `Severity` from `src/types/complaint.ts`. -/
inductive Severity where
  | Normal
  | NeedsQuickAttention
  | Extreme
  deriving DecidableEq, Repr

/-- A worker record `{ name: string; phone: string }`. -/
structure Worker where
  name : String
  phone : String
  deriving DecidableEq, Repr

/-- The optional feedback block of a complaint
(`feedback?: { rating; comment; submittedAt }`). -/
structure Feedback where
  rating : Nat
  comment : String
  submittedAt : Int
  deriving DecidableEq, Repr

/-- The `Complaint` interface of `src/types/complaint.ts`.  `createdAt`,
`updatedAt` and `submittedAt` are ISO strings in the source; they are modelled
by their millisecond values, which is what every computation in the source
extracts from them. -/
structure Complaint where
  id : String
  hostel : String
  roomNumber : String
  studentName : String
  rollNumber : String
  issueType : String
  severity : Severity
  description : String
  images : List String
  video : Option String
  status : Status
  level : Level
  createdAt : Int
  updatedAt : Int
  assignedWorkerName : Option String
  assignedWorkerPhone : Option String
  feedback : Option Feedback
  deriving DecidableEq, Repr

/-- `LEVEL_WORKERS` from `src/types/complaint.ts`: the static
level → worker lookup table. -/
def LEVEL_WORKERS : Level → Worker
  | .L1 => ⟨"Carpenter Krishna", "9876543210"⟩
  | .L2 => ⟨"Maintenance Supervisor", "9876500000"⟩
  | .L3 => ⟨"External Contractor", "9876511111"⟩
  | .L4 => ⟨"Hostel Warden", "9876522222"⟩

/-- The escalation path `levelMap` appearing in `escalateComplaint`
(`'Level 1' → 'Level 2' → 'Level 3' → 'Level 4' → null`). -/
def levelMap : Level → Option Level
  | .L1 => some .L2
  | .L2 => some .L3
  | .L3 => some .L4
  | .L4 => none

/-- Numeric index of a level in the fixed ordering
`Level 1 < Level 2 < Level 3 < Level 4`. -/
def levelIdx : Level → Nat
  | .L1 => 1
  | .L2 => 2
  | .L3 => 3
  | .L4 => 4

/-- The partial-update object passed to `updateComplaint`
(`Partial<Complaint>` restricted to the fields `updateComplaint` maps to
database columns: status, level, worker name/phone, feedback). -/
structure UpdateFields where
  status : Option Status := none
  level : Option Level := none
  assignedWorkerName : Option String := none
  assignedWorkerPhone : Option String := none
  feedback : Option Feedback := none
  deriving DecidableEq, Repr

/-- Application of an update object to one stored complaint row: each field
present in the update overwrites the column, every other column is kept, and
the `update_updated_at_column` trigger (see the SQL migration) stamps
`updated_at` with the current time.  This is the effect of
`supabase.from('complaints').update(dbUpdates)` on a matching row, and
equally of the localStorage variant `{ ...c, ...updates, updatedAt: now }`. -/
def applyUpdates (u : UpdateFields) (now : Int) (c : Complaint) : Complaint :=
  { c with
    status := u.status.getD c.status
    level := u.level.getD c.level
    assignedWorkerName :=
      match u.assignedWorkerName with
      | some n => some n
      | none => c.assignedWorkerName
    assignedWorkerPhone :=
      match u.assignedWorkerPhone with
      | some p => some p
      | none => c.assignedWorkerPhone
    feedback :=
      match u.feedback with
      | some f => some f
      | none => c.feedback
    updatedAt := now }

/-- `updateComplaint(id, updates)` from `useComplaints`: updates every stored
complaint whose `complaint_id` equals `id` (the `.eq('complaint_id', id)`
filter) with the given fields, leaving all other rows untouched. -/
def updateComplaint (id : String) (u : UpdateFields) (now : Int)
    (cs : List Complaint) : List Complaint :=
  cs.map fun c => if c.id == id then applyUpdates u now c else c

/-- `escalateComplaint(id)` from `useComplaints` (Supabase version):
finds the complaint in local state; if absent, logs and returns; if the level
has no successor (`Level 4`), logs "Already at maximum level" and returns;
otherwise writes the next level, status `Escalated` and the `LEVEL_WORKERS`
entry for the next level. -/
def escalateComplaint (id : String) (now : Int)
    (cs : List Complaint) : List Complaint :=
  match cs.find? (fun c => c.id == id) with
  | none => cs
  | some complaint =>
    match levelMap complaint.level with
    | none => cs
    | some nextLevel =>
      let worker := LEVEL_WORKERS nextLevel
      updateComplaint id
        { status := some .Escalated
          level := some nextLevel
          assignedWorkerName := some worker.name
          assignedWorkerPhone := some worker.phone } now cs

/-- `checkAutoEscalation(complaint)` from `useComplaints`, with the clock made
explicit: returns the update it would persist (`none` when no escalation is
needed).  Mirrors the source: skip if `Resolved`, skip if `Level 4`, compute
`Math.floor((now - created) / (1000*60*60*24))` and escalate when that is at
least 3, taking the next level from the level map and the worker from
`LEVEL_WORKERS`. -/
def checkAutoEscalation (c : Complaint) (now : Int) : Option UpdateFields :=
  if c.status == .Resolved then none
  else if c.level == .L4 then none
  else
    let daysSinceCreated := Int.fdiv (now - c.createdAt) 86400000
    if daysSinceCreated ≥ 3 then
      match levelMap c.level with
      | some nextLevel =>
        let worker := LEVEL_WORKERS nextLevel
        some
          { status := some .Escalated
            level := some nextLevel
            assignedWorkerName := some worker.name
            assignedWorkerPhone := some worker.phone }
      | none => none
    else none

/-- `resolveComplaint(id)`: `updateComplaint(id, { status: 'Resolved' })`. -/
def resolveComplaint (id : String) (now : Int)
    (cs : List Complaint) : List Complaint :=
  updateComplaint id { status := some .Resolved } now cs

/-- `submitFeedback(id, rating, comment)`:
`updateComplaint(id, { feedback: { rating, comment, submittedAt: now } })`. -/
def submitFeedback (id : String) (rating : Nat) (comment : String) (now : Int)
    (cs : List Complaint) : List Complaint :=
  updateComplaint id { feedback := some ⟨rating, comment, now⟩ } now cs

/-- `deleteComplaint(id)` from `useComplaints`: throws `'Complaint not found'`
when no stored complaint has the id, throws
`'Only resolved complaints can be deleted'` when the complaint's status is not
`Resolved`, and otherwise removes the matching rows. -/
def deleteComplaint (id : String)
    (cs : List Complaint) : Except String (List Complaint) :=
  match cs.find? (fun c => c.id == id) with
  | none => .error "Complaint not found"
  | some complaint =>
    if complaint.status ≠ .Resolved then
      .error "Only resolved complaints can be deleted"
    else
      .ok (cs.filter fun c => ¬ c.id == id)

/-- The row-level-security policy "Anyone can delete resolved complaints"
(`FOR DELETE USING (status = 'Resolved')`) from the migration adding worker
columns: the server allows deleting a row exactly when its status is
`Resolved`. -/
def deletePolicyAllows (c : Complaint) : Bool :=
  c.status == .Resolved

/-- `canGiveFeedback` from `ComplaintDetail`:
`complaint.status === 'Resolved' && !complaint.feedback`. -/
def canGiveFeedback (c : Complaint) : Bool :=
  c.status == .Resolved && c.feedback.isNone

/-- `canEscalate` from `ComplaintDetail`:
`complaint.level !== 'Level 4' && complaint.status !== 'Resolved'`. -/
def canEscalate (c : Complaint) : Bool :=
  c.level != .L4 && c.status != .Resolved

/-- Modelled from the spec: `getLevel1Worker` is imported from
`@/types/complaint` in the Supabase hook but its definition is not among the
provided sources.  Per the spec it is "a static issue-type → worker lookup
(fallback to a default Level-1 worker if the issue type is unrecognized)" and
"total function over all strings"; the lookup table is a parameter since its
entries are not given. -/
def getLevel1Worker (table : List (String × Worker)) (issueType : String) :
    Worker :=
  (table.lookup issueType).getD (LEVEL_WORKERS .L1)

/-- A concrete complaint used to instantiate theorems at explicit inputs. -/
def sampleComplaint (st : Status) (lv : Level) : Complaint :=
  { id := "HC-1"
    hostel := "Boys Hostel A"
    roomNumber := "101"
    studentName := "Asha"
    rollNumber := "R42"
    issueType := "Plumbing"
    severity := .Normal
    description := "leaking tap"
    images := []
    video := none
    status := st
    level := lv
    createdAt := 0
    updatedAt := 0
    assignedWorkerName := some "Carpenter Krishna"
    assignedWorkerPhone := some "9876543210"
    feedback := none }

/-! ## Helper lemmas -/

theorem applyUpdates_id (u : UpdateFields) (now : Int) (c : Complaint) :
    (applyUpdates u now c).id = c.id := rfl

theorem find?_updateComplaint (cs : List Complaint) (id : String)
    (u : UpdateFields) (now : Int) (c : Complaint)
    (hc : cs.find? (fun x => x.id == id) = some c) :
    (updateComplaint id u now cs).find? (fun x => x.id == id) =
      some (applyUpdates u now c) := by
  induction cs with
  | nil => simp [List.find?] at hc
  | cons a l ih =>
    rw [List.find?_cons] at hc
    unfold updateComplaint at ih ⊢
    simp only [List.map_cons]
    rw [List.find?_cons]
    cases h : a.id == id with
    | true =>
      simp only [h] at hc
      obtain rfl : a = c := by injection hc
      simp [h, applyUpdates_id]
    | false =>
      simp only [h] at hc
      simp only [h, Bool.false_eq_true, if_false]
      exact ih hc

theorem levelMap_of_ne_L4 (l : Level) (h : l ≠ .L4) :
    ∃ l', levelMap l = some l' ∧ levelIdx l' = levelIdx l + 1 := by
  cases l with
  | L1 => exact ⟨.L2, rfl, rfl⟩
  | L2 => exact ⟨.L3, rfl, rfl⟩
  | L3 => exact ⟨.L4, rfl, rfl⟩
  | L4 => exact absurd rfl h

theorem levelMap_ne_self (l l' : Level) (h : levelMap l = some l') : l' ≠ l := by
  cases l with
  | L1 => simp [levelMap] at h; subst h; decide
  | L2 => simp [levelMap] at h; subst h; decide
  | L3 => simp [levelMap] at h; subst h; decide
  | L4 => simp [levelMap] at h

theorem escalate_singleton_of_some (c : Complaint) (now : Int) (l' : Level)
    (hmap : levelMap c.level = some l') :
    escalateComplaint c.id now [c] =
      [applyUpdates
        { status := some .Escalated
          level := some l'
          assignedWorkerName := some (LEVEL_WORKERS l').name
          assignedWorkerPhone := some (LEVEL_WORKERS l').phone } now c] := by
  unfold escalateComplaint
  have hfind : List.find? (fun x => x.id == c.id) [c] = some c := by
    simp [List.find?_cons]
  rw [hfind]
  simp only [hmap]
  unfold updateComplaint
  simp

/-! ## Claim theorems -/

/-- C1, counterexample: the complaint `sampleComplaint Resolved L2` has status
`Resolved`, yet `escalateComplaint` changes it — the level moves to `Level 3`,
the status to `Escalated`, and the worker to the Level-3 entry — so the claim
that `escalateComplaint` is a reject/no-op on `Resolved` complaints is false. -/
theorem escalate_resolved_cex :
    (sampleComplaint .Resolved .L2).status = .Resolved ∧
    escalateComplaint "HC-1" 5 [sampleComplaint .Resolved .L2] ≠
      [sampleComplaint .Resolved .L2] ∧
    (escalateComplaint "HC-1" 5 [sampleComplaint .Resolved .L2]).map
      Complaint.level = [Level.L3] ∧
    (escalateComplaint "HC-1" 5 [sampleComplaint .Resolved .L2]).map
      Complaint.status = [Status.Escalated] ∧
    (escalateComplaint "HC-1" 5 [sampleComplaint .Resolved .L2]).map
      Complaint.assignedWorkerName = [some "External Contractor"] := by
  refine ⟨rfl, ?_, rfl, rfl, rfl⟩
  decide

/-- C1, amended: for every complaint with status `Resolved`,
`checkAutoEscalation` returns no escalation, while `escalateComplaint` guards
on level alone: it is a no-op if and only if the complaint is at `Level 4`,
and below `Level 4` it escalates exactly as for an unresolved complaint — the
level advances to its successor (so it changes), the status becomes
`Escalated` (so it changes), and the worker fields are set to the
`LEVEL_WORKERS` entry for the new level.  The status guard for manual
escalation lives in the UI's `canEscalate`, not in the hook. -/
theorem resolved_terminal_amended (c : Complaint) (now : Int)
    (h : c.status = .Resolved) :
    checkAutoEscalation c now = none ∧
    (escalateComplaint c.id now [c] = [c] ↔ c.level = .L4) ∧
    (c.level ≠ .L4 →
      ∃ c', escalateComplaint c.id now [c] = [c'] ∧
        levelMap c.level = some c'.level ∧
        c'.level ≠ c.level ∧
        c'.status = .Escalated ∧
        c'.status ≠ c.status ∧
        c'.assignedWorkerName = some (LEVEL_WORKERS c'.level).name ∧
        c'.assignedWorkerPhone = some (LEVEL_WORKERS c'.level).phone) := by
  refine ⟨by simp [checkAutoEscalation, h], ⟨?_, ?_⟩, ?_⟩
  · intro hnoop
    by_contra h4
    obtain ⟨l', hmap, -⟩ := levelMap_of_ne_L4 c.level h4
    rw [escalate_singleton_of_some c now l' hmap] at hnoop
    have hcc : applyUpdates
        { status := some .Escalated
          level := some l'
          assignedWorkerName := some (LEVEL_WORKERS l').name
          assignedWorkerPhone := some (LEVEL_WORKERS l').phone } now c = c := by
      simpa using hnoop
    have hst : Status.Escalated = c.status := congrArg Complaint.status hcc
    rw [h] at hst
    exact absurd hst (by decide)
  · intro h4
    unfold escalateComplaint
    have hfind : List.find? (fun x => x.id == c.id) [c] = some c := by
      simp [List.find?_cons]
    rw [hfind]
    simp [h4, levelMap]
  · intro h4
    obtain ⟨l', hmap, -⟩ := levelMap_of_ne_L4 c.level h4
    exact ⟨applyUpdates
        { status := some .Escalated
          level := some l'
          assignedWorkerName := some (LEVEL_WORKERS l').name
          assignedWorkerPhone := some (LEVEL_WORKERS l').phone } now c,
      escalate_singleton_of_some c now l' hmap, hmap,
      levelMap_ne_self c.level l' hmap, rfl,
      by rw [h]; show Status.Escalated ≠ Status.Resolved; decide, rfl, rfl⟩

/-- C1, witness for the amended theorem: a concrete `Resolved`/`Level 4`
complaint is left untouched, and a concrete `Resolved`/`Level 2` complaint is
escalated to `Level 3`/`Escalated` with the Level-3 worker. -/
theorem resolved_terminal_amended_witness :
    (checkAutoEscalation (sampleComplaint .Resolved .L4) 7 = none ∧
     escalateComplaint "HC-1" 7 [sampleComplaint .Resolved .L4] =
       [sampleComplaint .Resolved .L4]) ∧
    (∃ c', escalateComplaint "HC-1" 7 [sampleComplaint .Resolved .L2] = [c'] ∧
      levelMap (sampleComplaint .Resolved .L2).level = some c'.level ∧
      c'.level ≠ (sampleComplaint .Resolved .L2).level ∧
      c'.status = .Escalated ∧
      c'.status ≠ (sampleComplaint .Resolved .L2).status ∧
      c'.assignedWorkerName = some (LEVEL_WORKERS c'.level).name ∧
      c'.assignedWorkerPhone = some (LEVEL_WORKERS c'.level).phone) :=
  ⟨⟨(resolved_terminal_amended (sampleComplaint .Resolved .L4) 7 rfl).1,
    ((resolved_terminal_amended (sampleComplaint .Resolved .L4) 7 rfl).2.1).mpr
      rfl⟩,
   (resolved_terminal_amended (sampleComplaint .Resolved .L2) 7 rfl).2.2
      (by decide)⟩

/-- C2: escalating a stored complaint that is below `Level 4` (and not
`Resolved`) yields exactly the successor level in the fixed ordering, status
`Escalated`, and the `LEVEL_WORKERS` entry for the new level. -/
theorem escalate_below_max (cs : List Complaint) (id : String) (c : Complaint)
    (now : Int) (hc : cs.find? (fun x => x.id == id) = some c)
    (hres : c.status ≠ .Resolved) (hl : c.level ≠ .L4) :
    ∃ c', (escalateComplaint id now cs).find? (fun x => x.id == id) = some c' ∧
      levelMap c.level = some c'.level ∧
      levelIdx c'.level = levelIdx c.level + 1 ∧
      c'.status = .Escalated ∧
      c'.assignedWorkerName = some (LEVEL_WORKERS c'.level).name ∧
      c'.assignedWorkerPhone = some (LEVEL_WORKERS c'.level).phone := by
  obtain ⟨l', hmap, hidx⟩ := levelMap_of_ne_L4 c.level hl
  refine ⟨applyUpdates
    { status := some .Escalated
      level := some l'
      assignedWorkerName := some (LEVEL_WORKERS l').name
      assignedWorkerPhone := some (LEVEL_WORKERS l').phone } now c, ?_, ?_, ?_, rfl, rfl, rfl⟩
  · unfold escalateComplaint
    rw [hc]
    simp only [hmap]
    exact find?_updateComplaint cs id _ now c hc
  · simpa using hmap
  · simpa using hidx

/-- C2, witness: a concrete `Pending`/`Level 1` complaint escalates to
`Level 2`, `Escalated`, with the Level-2 worker. -/
theorem escalate_below_max_witness :
    ∃ c', (escalateComplaint "HC-1" 3 [sampleComplaint .Pending .L1]).find?
        (fun x => x.id == "HC-1") = some c' ∧
      levelMap (sampleComplaint .Pending .L1).level = some c'.level ∧
      levelIdx c'.level = levelIdx (sampleComplaint .Pending .L1).level + 1 ∧
      c'.status = .Escalated ∧
      c'.assignedWorkerName = some (LEVEL_WORKERS c'.level).name ∧
      c'.assignedWorkerPhone = some (LEVEL_WORKERS c'.level).phone :=
  escalate_below_max [sampleComplaint .Pending .L1] "HC-1"
    (sampleComplaint .Pending .L1) 3 rfl (by decide) (by decide)

/-- C3: `checkAutoEscalation` returns an escalation delta iff the floored
whole-day age is at least 3, the status is not `Resolved` and the level is not
`Level 4`; in every other case it reports no escalation.  The boundary is
exact: 3.0 elapsed days escalate, anything below does not. -/
theorem autoEscalation_iff (c : Complaint) (now : Int) :
    (checkAutoEscalation c now).isSome ↔
      (3 ≤ Int.fdiv (now - c.createdAt) 86400000 ∧
       c.status ≠ Status.Resolved ∧ c.level ≠ Level.L4) := by
  unfold checkAutoEscalation
  by_cases h1 : c.status = Status.Resolved
  · simp [h1]
  · by_cases h2 : c.level = Level.L4
    · simp [h1, h2]
    · by_cases h3 : 3 ≤ Int.fdiv (now - c.createdAt) 86400000
      · obtain ⟨l', hmap, -⟩ := levelMap_of_ne_L4 c.level h2
        simp [h1, h2, h3, hmap, ge_iff_le]
      · simp [h1, h2, h3, ge_iff_le]

/-- C4, counterexample: `submitFeedback` on a `Pending` complaint attaches the
feedback while the status stays `Pending`, so feedback can exist on a
non-resolved complaint and the submission is not rejected. -/
theorem feedback_unguarded_cex :
    (sampleComplaint .Pending .L1).status ≠ Status.Resolved ∧
    (submitFeedback "HC-1" 5 "great" 9 [sampleComplaint .Pending .L1]).map
      Complaint.feedback = [some ⟨5, "great", 9⟩] ∧
    (submitFeedback "HC-1" 5 "great" 9 [sampleComplaint .Pending .L1]).map
      Complaint.status = [Status.Pending] :=
  ⟨by decide, rfl, rfl⟩

/-- C4, amended: the feedback guard lives in the UI — `canGiveFeedback` holds
exactly when the status is `Resolved` and no feedback exists yet — while the
hook-level `submitFeedback` updates unconditionally: it attaches the feedback
and leaves the status unchanged whatever the status is. -/
theorem feedback_guard_in_ui (c : Complaint) :
    (canGiveFeedback c = true ↔ c.status = Status.Resolved ∧ c.feedback = none) ∧
    ∀ r cm now,
      (submitFeedback c.id r cm now [c]).map Complaint.feedback =
        [some ⟨r, cm, now⟩] ∧
      (submitFeedback c.id r cm now [c]).map Complaint.status = [c.status] := by
  constructor
  · simp [canGiveFeedback, Option.isNone_iff_eq_none]
  · intro r cm now
    simp [submitFeedback, updateComplaint, applyUpdates]

/-- C5: escalating a stored complaint at `Level 4` is a no-op — the stored
list, and with it the complaint's level, status and worker fields, are
returned unchanged. -/
theorem escalate_max_noop (cs : List Complaint) (id : String) (c : Complaint)
    (now : Int) (hc : cs.find? (fun x => x.id == id) = some c)
    (h4 : c.level = Level.L4) :
    escalateComplaint id now cs = cs := by
  unfold escalateComplaint
  rw [hc]
  simp [h4, levelMap]

/-- C5, witness at a concrete `Escalated`/`Level 4` complaint. -/
theorem escalate_max_noop_witness :
    escalateComplaint "HC-1" 11 [sampleComplaint .Escalated .L4] =
      [sampleComplaint .Escalated .L4] :=
  escalate_max_noop [sampleComplaint .Escalated .L4] "HC-1"
    (sampleComplaint .Escalated .L4) 11 rfl rfl

/-- C6: a stored complaint can be deleted iff its status is `Resolved`:
`deleteComplaint` succeeds exactly on `Resolved` complaints, errors with
`'Only resolved complaints can be deleted'` otherwise (leaving the stored
list untouched, since the error is raised before any removal), and the
server-side delete policy allows the row exactly when it is `Resolved`. -/
theorem delete_resolved_only (cs : List Complaint) (id : String) (c : Complaint)
    (hc : cs.find? (fun x => x.id == id) = some c) :
    ((∃ cs', deleteComplaint id cs = Except.ok cs') ↔
      c.status = Status.Resolved) ∧
    (c.status ≠ Status.Resolved →
      deleteComplaint id cs =
        Except.error "Only resolved complaints can be deleted") ∧
    (deletePolicyAllows c = true ↔ c.status = Status.Resolved) := by
  unfold deleteComplaint
  rw [hc]
  by_cases h : c.status = Status.Resolved <;> simp [h, deletePolicyAllows]

/-- C6, witness at a concrete `Pending` complaint: deletion is rejected. -/
theorem delete_resolved_only_witness :
    ((∃ cs', deleteComplaint "HC-1" [sampleComplaint .Pending .L3] =
        Except.ok cs') ↔ (sampleComplaint .Pending .L3).status =
        Status.Resolved) ∧
    ((sampleComplaint .Pending .L3).status ≠ Status.Resolved →
      deleteComplaint "HC-1" [sampleComplaint .Pending .L3] =
        Except.error "Only resolved complaints can be deleted") ∧
    (deletePolicyAllows (sampleComplaint .Pending .L3) = true ↔
      (sampleComplaint .Pending .L3).status = Status.Resolved) :=
  delete_resolved_only [sampleComplaint .Pending .L3] "HC-1"
    (sampleComplaint .Pending .L3) rfl

/-- C7: resolving is idempotent — resolving an already-resolved list again
produces exactly the state a single resolution would have produced. -/
theorem resolve_idempotent (cs : List Complaint) (id : String) (t1 t2 : Int) :
    resolveComplaint id t2 (resolveComplaint id t1 cs) =
      resolveComplaint id t2 cs := by
  unfold resolveComplaint updateComplaint
  rw [List.map_map]
  congr 1
  funext x
  by_cases h : x.id == id
  · simp [Function.comp, h, applyUpdates, applyUpdates_id]
  · simp [Function.comp, h]

/-- C8: resolving is legal at every level and only sets the status — the
resolved complaint keeps its level, worker name/phone and feedback exactly as
they were. -/
theorem resolve_frame (cs : List Complaint) (id : String) (c : Complaint)
    (now : Int) (hc : cs.find? (fun x => x.id == id) = some c) :
    ∃ c', (resolveComplaint id now cs).find? (fun x => x.id == id) = some c' ∧
      c'.status = Status.Resolved ∧
      c'.level = c.level ∧
      c'.assignedWorkerName = c.assignedWorkerName ∧
      c'.assignedWorkerPhone = c.assignedWorkerPhone ∧
      c'.feedback = c.feedback :=
  ⟨applyUpdates { status := some .Resolved } now c,
    find?_updateComplaint cs id _ now c hc, rfl, rfl, rfl, rfl, rfl⟩

/-- C8, witness at a concrete `Escalated`/`Level 2` complaint. -/
theorem resolve_frame_witness :
    ∃ c', (resolveComplaint "HC-1" 13 [sampleComplaint .Escalated .L2]).find?
        (fun x => x.id == "HC-1") = some c' ∧
      c'.status = Status.Resolved ∧
      c'.level = (sampleComplaint .Escalated .L2).level ∧
      c'.assignedWorkerName = (sampleComplaint .Escalated .L2).assignedWorkerName ∧
      c'.assignedWorkerPhone = (sampleComplaint .Escalated .L2).assignedWorkerPhone ∧
      c'.feedback = (sampleComplaint .Escalated .L2).feedback :=
  resolve_frame [sampleComplaint .Escalated .L2] "HC-1"
    (sampleComplaint .Escalated .L2) 13 rfl

/-- C9: the issue-type → worker lookup is total over all strings — a
recognized issue type yields its table entry, and an unrecognized one falls
back to the default Level-1 worker; no input throws. -/
theorem worker_lookup_total (table : List (String × Worker))
    (issueType : String) :
    (∀ w, table.lookup issueType = some w →
      getLevel1Worker table issueType = w) ∧
    (table.lookup issueType = none →
      getLevel1Worker table issueType = LEVEL_WORKERS Level.L1) := by
  constructor
  · intro w hw
    simp [getLevel1Worker, hw]
  · intro hw
    simp [getLevel1Worker, hw]

/-- C9, witness: a recognized issue type returns its entry and an
unrecognized one returns the default Level-1 worker. -/
theorem worker_lookup_total_witness :
    getLevel1Worker [("Plumbing", LEVEL_WORKERS Level.L2)] "Plumbing" =
      LEVEL_WORKERS Level.L2 ∧
    getLevel1Worker [("Plumbing", LEVEL_WORKERS Level.L2)] "Gardening" =
      LEVEL_WORKERS Level.L1 :=
  ⟨(worker_lookup_total [("Plumbing", LEVEL_WORKERS Level.L2)] "Plumbing").1
      (LEVEL_WORKERS Level.L2) rfl,
   (worker_lookup_total [("Plumbing", LEVEL_WORKERS Level.L2)] "Gardening").2
      rfl⟩

/-- C10: on an id that matches no stored complaint, `escalateComplaint`
returns silently with the stored complaints unchanged, while
`deleteComplaint` raises `'Complaint not found'`. -/
theorem unknown_id_behavior (cs : List Complaint) (id : String) (now : Int)
    (h : cs.find? (fun c => c.id == id) = none) :
    escalateComplaint id now cs = cs ∧
    deleteComplaint id cs = Except.error "Complaint not found" := by
  constructor
  · unfold escalateComplaint
    rw [h]
  · unfold deleteComplaint
    rw [h]

/-- C10, witness: a list holding one complaint with a different id. -/
theorem unknown_id_behavior_witness :
    escalateComplaint "HC-404" 0 [sampleComplaint .Pending .L1] =
      [sampleComplaint .Pending .L1] ∧
    deleteComplaint "HC-404" [sampleComplaint .Pending .L1] =
      Except.error "Complaint not found" :=
  unknown_id_behavior [sampleComplaint .Pending .L1] "HC-404" 0 rfl

end HostelHelper
